import Mathlib

/-!
Shallow embedding of the serve-index middleware (src/index.js).

The middleware is modelled with POSIX path semantics (`path.sep = "/"`), strings
as sequences of characters, and the external collaborators of the code
(`decodeURIComponent`, the `accepts` negotiator, `parseurl`, locale date
formatting, the filesystem) as explicit parameters of the handler.  All string
primitives are re-implemented over `List Char` by structural recursion so that
every definition evaluates by kernel reduction.
-/

namespace ServeIndex

/-! ### JS / Node string primitives -/

/-- `path.sep` on POSIX. -/
def sep : String := "/"

/-- The NUL character, `"\0"` in the source. -/
def nul : Char := Char.ofNat 0

/-- `String.prototype.indexOf(c) !== -1`, i.e. character membership. -/
def strContains (s : String) (c : Char) : Bool := s.data.contains c

/-- `String.prototype.substr(0, n)`: the first `n` characters. -/
def strTake (s : String) (n : Nat) : String := ⟨s.data.take n⟩

def splitOnCharAux (c : Char) (acc : List Char) : List Char → List (List Char)
  | [] => [acc.reverse]
  | x :: xs =>
    if x = c then acc.reverse :: splitOnCharAux c [] xs
    else splitOnCharAux c (x :: acc) xs

/-- `String.prototype.split('/')`. -/
def splitSlash (s : String) : List String :=
  (splitOnCharAux '/' [] s.data).map (fun cs => ⟨cs⟩)

/-- Does the string start with a `'/'`?  (`path.isAbsolute` on POSIX.) -/
def isAbsolute (s : String) : Bool :=
  match s.data with
  | c :: _ => c = '/'
  | [] => false

/-- Does the string end with a `'/'`? -/
def endsWithSlash (s : String) : Bool := s.data.getLast? == some '/'

/-- Replace the first occurrence of `pat` scanning left to right, repeatedly:
`String.prototype.replace(/pat/g, repl)` for a literal nonempty pattern.
Fuelled by the remaining length so that it is structurally recursive. -/
def replaceFuel (pat repl : List Char) : Nat → List Char → List Char
  | 0, s => s
  | _ + 1, [] => []
  | fuel + 1, c :: rest =>
    if pat ≠ [] ∧ pat.isPrefixOf (c :: rest) then
      repl ++ replaceFuel pat repl fuel ((c :: rest).drop pat.length)
    else
      c :: replaceFuel pat repl fuel rest

def replaceAll (s pat repl : String) : String :=
  ⟨replaceFuel pat.data repl.data s.data.length s.data⟩

/-! ### Node `path` module (POSIX flavour)

`normalizeString` from Node's `path.js`: resolve `.` and `..` segments; `..`
above the root is kept only for relative paths (`allowAbove`). -/

def normSegs (allowAbove : Bool) (acc : List String) : List String → List String
  | [] => acc.reverse
  | s :: rest =>
    if s = "" ∨ s = "." then normSegs allowAbove acc rest
    else if s = ".." then
      match acc with
      | [] => normSegs allowAbove (if allowAbove then [".."] else []) rest
      | t :: ts =>
        if t = ".." then normSegs allowAbove (if allowAbove then s :: acc else acc) rest
        else normSegs allowAbove ts rest
    else normSegs allowAbove (s :: acc) rest

/-- `path.normalize` (POSIX). -/
def normalize (p : String) : String :=
  if p = "" then "." else
  let isAbs := isAbsolute p
  let trail := endsWithSlash p
  let body := String.intercalate "/" (normSegs (!isAbs) [] (splitSlash p))
  let body1 := if body = "" ∧ isAbs = false then "." else body
  let body2 := if body1 ≠ "" ∧ trail = true then body1 ++ "/" else body1
  if isAbs then "/" ++ body2 else body2

/-- `path.join(a, b)` (POSIX): drop empty arguments, connect with `'/'`,
normalize. -/
def join (a b : String) : String :=
  let parts := [a, b].filter (fun s => s ≠ "")
  let j := String.intercalate "/" parts
  if j = "" then "." else normalize j

/-- `path.resolve(p)` (POSIX) with the process working directory `cwd` made
explicit.  Produces an absolute normalized path without a trailing slash
(except for the root `"/"` itself). -/
def resolve (cwd p : String) : String :=
  let q := if isAbsolute p then p else cwd ++ "/" ++ p
  if isAbsolute q then "/" ++ String.intercalate "/" (normSegs false [] (splitSlash q))
  else
    let r := String.intercalate "/" (normSegs true [] (splitSlash q))
    if r = "" then "." else r

/-- `path.extname` (POSIX): the extension of the basename, `""` for a leading
dot, a dotless name, or the special name `".."`. -/
def lastIdxOf (c : Char) : List Char → Option Nat
  | [] => none
  | x :: xs =>
    match lastIdxOf c xs with
    | some i => some (i + 1)
    | none => if x = c then some 0 else none

def extname (p : String) : String :=
  let base : String := (splitSlash p).getLastD ""
  match lastIdxOf '.' base.data with
  | none => ""
  | some 0 => ""
  | some i => if base = ".." then "" else ⟨base.data.drop i⟩

/-- `normalizeSlashes` from the source: `path.split(sep).join('/')`. -/
def normalizeSlashes (path : String) : String :=
  String.intercalate "/" (splitSlash path)

/-! ### escape-html and encodeURIComponent -/

/-- The `escape-html` package: replace `&"'<>` by entities. -/
def escapeHtmlChar (c : Char) : String :=
  if c = Char.ofNat 34 then "&quot;"
  else if c = Char.ofNat 38 then "&amp;"
  else if c = Char.ofNat 39 then "&#39;"
  else if c = Char.ofNat 60 then "&lt;"
  else if c = Char.ofNat 62 then "&gt;"
  else String.singleton c

def escapeHtml (s : String) : String := String.join (s.data.map escapeHtmlChar)

/-- UTF-8 bytes of a character, as plain naturals. -/
def utf8Bytes (c : Char) : List Nat :=
  let n := c.toNat
  if n < 0x80 then [n]
  else if n < 0x800 then [0xC0 + n / 64, 0x80 + n % 64]
  else if n < 0x10000 then [0xE0 + n / 4096, 0x80 + (n / 64) % 64, 0x80 + n % 64]
  else [0xF0 + n / 262144, 0x80 + (n / 4096) % 64, 0x80 + (n / 64) % 64, 0x80 + n % 64]

def hexDigitU (n : Nat) : Char :=
  if n < 10 then Char.ofNat (48 + n) else Char.ofNat (55 + n)

/-- Characters `encodeURIComponent` leaves unescaped: alphanumerics and
`- _ . ! ~ * ' ( )`. -/
def uriUnreserved (c : Char) : Bool :=
  c.isAlphanum || [45, 95, 46, 33, 126, 42, 39, 40, 41].contains c.toNat

def encodeURIComponent (s : String) : String :=
  String.join (s.data.map (fun c =>
    if uriUnreserved c then String.singleton c
    else String.join ((utf8Bytes c).map (fun b =>
      "%" ++ String.singleton (hexDigitU (b / 16)) ++ String.singleton (hexDigitU (b % 16))))))

/-! ### JSON.stringify for arrays of strings -/

def hexDigitL (n : Nat) : Char :=
  if n < 10 then Char.ofNat (48 + n) else Char.ofNat (87 + n)

def jsonEscapeChar (c : Char) : String :=
  if c = Char.ofNat 34 then "\\\""
  else if c = Char.ofNat 92 then "\\\\"
  else if c = Char.ofNat 8 then "\\b"
  else if c = Char.ofNat 9 then "\\t"
  else if c = Char.ofNat 10 then "\\n"
  else if c = Char.ofNat 12 then "\\f"
  else if c = Char.ofNat 13 then "\\r"
  else if c.toNat < 32 then
    "\\u00" ++ String.singleton (hexDigitL (c.toNat / 16)) ++ String.singleton (hexDigitL (c.toNat % 16))
  else String.singleton c

def jsonQuote (s : String) : String :=
  "\"" ++ String.join (s.data.map jsonEscapeChar) ++ "\""

/-- `JSON.stringify` applied to an array of strings. -/
def jsonStringify (l : List String) : String :=
  "[" ++ String.intercalate "," (l.map jsonQuote) ++ "]"

/-! ### JS default `Array.prototype.sort()` on strings

The default comparator converts to strings and compares UTF-16 code unit
sequences lexicographically; the sort is stable.  We model it with a stable
insertion sort over that order. -/

def utf16Units (s : String) : List Nat :=
  s.data.flatMap (fun c =>
    let n := c.toNat
    if n < 0x10000 then [n]
    else [0xD800 + (n - 0x10000) / 0x400, 0xDC00 + (n - 0x10000) % 0x400])

def lexLeNat : List Nat → List Nat → Bool
  | [], _ => true
  | _ :: _, [] => false
  | a :: as, b :: bs => if a < b then true else if b < a then false else lexLeNat as bs

/-- The JS default string order: `a` sorts no later than `b`. -/
def jsStrLe (a b : String) : Bool := lexLeNat (utf16Units a) (utf16Units b)

def insertSorted (le : String → String → Bool) (a : String) : List String → List String
  | [] => [a]
  | b :: bs => if le a b then a :: b :: bs else b :: insertSorted le a bs

def insertionSort (le : String → String → Bool) : List String → List String
  | [] => []
  | a :: as => insertSorted le a (insertionSort le as)

/-- `files.sort()` from the source. -/
def sortJS (l : List String) : List String := insertionSort jsStrLe l

/-! ### Data model -/

inductive FsErr where
  | enoent
  | enametoolong
  | eacces
  | eio
  | other (code : String)
deriving DecidableEq, Repr

structure Stat where
  isDirectory : Bool
  size : Nat
  mtime : Nat
deriving DecidableEq, Repr

/-- The filesystem as seen through the `fs` calls the source makes. -/
structure Fs where
  stat : String → Except FsErr Stat
  readdir : String → Except FsErr (List String)
  readFile : String → Except FsErr String

inductive FsOp where
  | statOp (p : String)
  | readdirOp (p : String)
  | readFileOp (p : String)
deriving DecidableEq, Repr

inductive JsError where
  | typeError (msg : String)
  | uriError
deriving DecidableEq, Repr

/-- The observable result of one request: an uncaught exception, a direct
method response (OPTIONS/405), `next(err)` with an http-errors status,
`next(err)` with a raw filesystem error, a plain `next()` pass-through, or a
rendered response body. -/
inductive Outcome where
  | thrown (e : JsError)
  | methodRes (status : Nat)
  | nextErr (status : Nat)
  | nextRawErr (e : FsErr)
  | next
  | response (ctype : String) (body : String)
deriving DecidableEq, Repr

structure Req where
  method : String
  pathname : String
  originalPathname : String

/-- External collaborators: `decodeURIComponent` (`none` = the builtin throws
`URIError`), the `accepts` negotiator, the process working directory, and
locale date/time formatting. -/
structure Env where
  decode : String → Option String
  negotiate : List String → Option String
  cwd : String
  fmtDate : Nat → String
  fmtTime : Nat → String

/-- The per-instance configuration captured by the middleware closure.  The
source also captures `filter` and `hidden`, which are never read again. -/
structure Config where
  rootPath : String
  icons : Bool
  stylesheet : String
  template : String
  view : String

def mediaTypes : List String := ["text/html", "text/plain", "application/json"]

/-! ### The `stat` batch helper (lines 371-388) -/

/-- One batched `fs.stat` job: ENOENT becomes a `null` stat, any other error is
passed to `done`. -/
def statOne (fs : Fs) (p : String) : Except FsErr (Option Stat) :=
  match fs.stat p with
  | .error e => if e = .enoent then .ok none else .error e
  | .ok st => .ok (some st)

/-- `stat(dir, files, cb)`: stat every file, results positionally aligned with
`files`; the first hard error aborts the batch. -/
def stat (fs : Fs) (dir : String) : List String → Except FsErr (List (Option Stat))
  | [] => .ok []
  | f :: rest =>
    match statOne fs (join dir f), stat fs dir rest with
    | .error e, _ => .error e
    | .ok _, .error e => .error e
    | .ok v, .ok vs => .ok (v :: vs)

/-! ### HTML rendering -/

def iconStyle (_files : List (String × Option Stat)) (_useIcons : Bool) : String := ""

def videoBlock (href : String) : String :=
  "<div class=\"video-wrap\"><video id=\"my_video_1\" class=\"video-js vjs-default-skin\" controls preload=\"auto\" data-setup=\x27\x7b \"playbackRates\": [0.5, 1, 1.5, 2], aspectRatio:\"16:9\" \x7d\x27><source src=\"" ++ href ++ "\" type=\x27video/mp4\x27></video></div>"

/-- One `<li>` of `createHtmlFileList`. -/
def fileItemHtml (fmtD fmtT : Nat → String) (dir : String) (useIcons : Bool)
    (file : String × Option Stat) : String :=
  let classes : List String := if useIcons then ["icon"] else []
  let isDir : Bool := match file.2 with | some st => st.isDirectory | none => false
  let segs := (splitSlash dir).map encodeURIComponent ++ [encodeURIComponent file.1]
  let date : String := match file.2 with
    | some st => if file.1 ≠ ".." then fmtD st.mtime ++ " " ++ fmtT st.mtime else ""
    | none => ""
  let size : String := match file.2 with
    | some st => if isDir = false then toString st.size else ""
    | none => ""
  let href := escapeHtml (normalizeSlashes (normalize (String.intercalate "/" segs)))
  let result := "<li><a href=\"" ++ href ++ "\" class=\"" ++
    escapeHtml (String.intercalate " " classes) ++ "\" title=\"" ++ escapeHtml file.1 ++
    "\">" ++ "<span class=\"name\">" ++ escapeHtml file.1 ++ "</span><span class=\"size\">" ++
    escapeHtml size ++ "</span><span class=\"date\">" ++ escapeHtml date ++ "</span></a></li>"
  if extname file.1 = ".mp4" ∧ isDir = false then result ++ videoBlock href else result

/-- `createHtmlFileList(files, dir, useIcons, view)`. -/
def createHtmlFileList (fmtD fmtT : Nat → String) (files : List (String × Option Stat))
    (dir : String) (useIcons : Bool) (view : String) : String :=
  "<ul id=\"files\" class=\"view-" ++ escapeHtml view ++ "\">" ++
    (if view = "details" then
      "<li class=\"header\"><span class=\"name\">Name</span><span class=\"size\">Size</span><span class=\"date\">Modified</span></li>"
    else "") ++
  String.intercalate "\n" (files.map (fileItemHtml fmtD fmtT dir useIcons)) ++ "</ul>"

/-- `htmlPath(dir)`: breadcrumb links over the non-empty path segments, each
pointing at the cumulative percent-encoded prefix. -/
def htmlPathAux (encPrefix : List String) : List String → List String
  | [] => []
  | p :: rest =>
    if p = "" then "" :: htmlPathAux (encPrefix ++ [""]) rest
    else
      let e := encodeURIComponent p
      ("<a href=\"" ++ escapeHtml (String.intercalate "/" (encPrefix ++ [e])) ++ "\">" ++
        escapeHtml p ++ "</a>") :: htmlPathAux (encPrefix ++ [e]) rest

def htmlPath (dir : String) : String :=
  String.intercalate " / " (htmlPathAux [] (splitSlash dir))

/-- The template substitution of `createHtmlRender`: replace the four
placeholders of the loaded template. -/
def renderBody (fmtD fmtT : Nat → String) (tmpl style : String)
    (fileList : List (String × Option Stat)) (dir : String) (icons : Bool)
    (view : String) : String :=
  replaceAll
    (replaceAll
      (replaceAll
        (replaceAll tmpl "\x7bstyle\x7d" (style ++ iconStyle fileList icons))
        "\x7bfiles\x7d" (createHtmlFileList fmtD fmtT fileList dir icons view))
      "\x7bdirectory\x7d" (escapeHtml dir))
    "\x7blinked-path\x7d" (htmlPath dir)

/-! ### The middleware -/

/-- `files.unshift('..')` guarded by `showUp` in `serveIndex.html`. -/
def htmlFiles (showUp : Bool) (files : List String) : List String :=
  if showUp then ".." :: files else files

/-- Line 120: `normalize(resolve(path) + sep) !== rootPath`. -/
def showUpFlag (rootPath cwd path : String) : Bool :=
  normalize (resolve cwd path ++ sep) != rootPath

/-- `serveIndex.html` (lines 161-203): prepend `".."` when `showUp`, stat every
entry, read the stylesheet and the template, and substitute. -/
def serveIndexHtml (cfg : Config) (env : Env) (fs : Fs) (files : List String)
    (dir : String) (showUp : Bool) (path : String) (ops : List FsOp) :
    Outcome × List FsOp :=
  let files1 := htmlFiles showUp files
  let ops1 := ops ++ files1.map (fun f => FsOp.statOp (join path f))
  match stat fs path files1 with
  | .error e => (.nextRawErr e, ops1)
  | .ok stats =>
    let fileList := files1.zip stats
    match fs.readFile cfg.stylesheet with
    | .error e => (.nextRawErr e, ops1 ++ [.readFileOp cfg.stylesheet])
    | .ok style =>
      match fs.readFile cfg.template with
      | .error e => (.nextRawErr e, ops1 ++ [.readFileOp cfg.stylesheet, .readFileOp cfg.template])
      | .ok tmpl =>
        (.response "text/html"
          (renderBody env.fmtDate env.fmtTime tmpl style fileList dir cfg.icons cfg.view),
         ops1 ++ [.readFileOp cfg.stylesheet, .readFileOp cfg.template])

/-- The request handler returned by `serveIndex` (lines 92-154), together with
the list of filesystem operations it performs. -/
def handle (cfg : Config) (env : Env) (fs : Fs) (req : Req) : Outcome × List FsOp :=
  if req.method ≠ "GET" ∧ req.method ≠ "HEAD" then
    (.methodRes (if req.method = "OPTIONS" then 200 else 405), [])
  else
    match env.decode req.pathname with
    | none => (.thrown .uriError, [])
    | some dir =>
      match env.decode req.originalPathname with
      | none => (.thrown .uriError, [])
      | some originalDir =>
        let path := normalize (join cfg.rootPath dir)
        if strContains path nul then (.nextErr 400, [])
        else if strTake (path ++ sep) cfg.rootPath.length ≠ cfg.rootPath then
          (.nextErr 403, [])
        else
          let showUp := showUpFlag cfg.rootPath env.cwd path
          match fs.stat path with
          | .error e =>
            if e = .enoent then (.next, [.statOp path])
            else (.nextErr (if e = .enametoolong then 414 else 500), [.statOp path])
          | .ok st =>
            if st.isDirectory = false then (.next, [.statOp path])
            else
              match fs.readdir path with
              | .error e => (.nextRawErr e, [.statOp path, .readdirOp path])
              | .ok files0 =>
                let files := sortJS files0
                match env.negotiate mediaTypes with
                | none => (.nextErr 406, [.statOp path, .readdirOp path])
                | some t =>
                  if t = "text/html" then
                    serveIndexHtml cfg env fs files originalDir showUp path
                      [.statOp path, .readdirOp path]
                  else if t = "text/plain" then
                    (.response "text/plain" (String.intercalate "\n" files ++ "\n"),
                     [.statOp path, .readdirOp path])
                  else if t = "application/json" then
                    (.response "application/json" (jsonStringify files),
                     [.statOp path, .readdirOp path])
                  else
                    (.thrown (.typeError "serveIndex renderer is not a function"),
                     [.statOp path, .readdirOp path])

/-- The exported constructor (lines 74-91): reject a falsy `root` with a
`TypeError`, otherwise capture `rootPath = normalize(resolve(root) + sep)`. -/
def serveIndex (cwd : String) (root : Option String) : Except JsError String :=
  match root with
  | none => .error (.typeError "serveIndex() root path required")
  | some r =>
    if r = "" then .error (.typeError "serveIndex() root path required")
    else .ok (normalize (resolve cwd r ++ sep))

/-! ### Sanity checks of the path model -/

example : normalize "/r//../x" = "/x" := rfl
example : normalize "/r/" = "/r/" := rfl
example : normalize "a/.." = "." := rfl
example : normalize "a/../" = "./" := rfl
example : normalize "" = "." := rfl
example : normalize "/" = "/" := rfl
example : join "/r/" "/sub" = "/r/sub" := rfl
example : join "/r/" "/" = "/r/" := rfl
example : join "/r/" "/../etc" = "/etc" := rfl
example : resolve "/w" "/r/" = "/r" := rfl
example : resolve "/w" "r" = "/w/r" := rfl
example : resolve "/w" "/r/sub" = "/r/sub" := rfl
example : serveIndex "/w" (some "/r") = .ok "/r/" := rfl
example : sortJS ["b", "a", "c"] = ["a", "b", "c"] := rfl
example : jsonStringify ["a", "b"] = "[\"a\",\"b\"]" := rfl
example : extname "a/b.mp4" = ".mp4" := rfl
example : extname ".." = "" := rfl
example : extname ".hidden" = "" := rfl

/-! ### Concrete fixtures used by witnesses and counterexamples -/

def cfg0 : Config :=
  { rootPath := "/r/", icons := false, stylesheet := "/st.css",
    template := "/tmpl.html", view := "tiles" }

def envJson : Env :=
  { decode := fun s => some s, negotiate := fun _ => some "application/json",
    cwd := "/w", fmtDate := fun _ => "D", fmtTime := fun _ => "T" }

def envHtml : Env :=
  { envJson with negotiate := fun _ => some "text/html" }

def envPlain : Env :=
  { envJson with negotiate := fun _ => some "text/plain" }

def envNoAccept : Env :=
  { envJson with negotiate := fun _ => none }

def stDir : Stat := { isDirectory := true, size := 0, mtime := 7 }

def stFile : Stat := { isDirectory := false, size := 5, mtime := 9 }

def fs0 : Fs :=
  { stat := fun p =>
      if p = "/r/sub" then .ok stDir
      else if p = "/r/sub/a" then .ok stFile
      else .error .enoent,
    readdir := fun p => if p = "/r/sub" then .ok ["b", "a"] else .error .eio,
    readFile := fun p =>
      if p = "/st.css" then .ok "S"
      else if p = "/tmpl.html" then .ok "[\x7bfiles\x7d]"
      else .error .eio }

def reqSub : Req := { method := "GET", pathname := "/sub", originalPathname := "/sub" }

example :
    handle cfg0 envJson fs0 reqSub =
      (.response "application/json" "[\"a\",\"b\"]",
       [.statOp "/r/sub", .readdirOp "/r/sub"]) := rfl

example :
    handle cfg0 envPlain fs0 reqSub =
      (.response "text/plain" "a\nb\n", [.statOp "/r/sub", .readdirOp "/r/sub"]) := rfl

example : (handle cfg0 envNoAccept fs0 reqSub).1 = .nextErr 406 := rfl

example :
    (handle cfg0 envHtml fs0 reqSub).1 =
      .response "text/html"
        (renderBody envHtml.fmtDate envHtml.fmtTime "[\x7bfiles\x7d]" "S"
          ((htmlFiles true (sortJS ["b", "a"])).zip [none, some stFile, none])
          "/sub" false "tiles") := rfl

/-! ### Order lemmas for the JS sort -/

theorem lexLeNat_cons_iff (x y : Nat) (xs ys : List Nat) :
    lexLeNat (x :: xs) (y :: ys) = true ↔ x < y ∨ (x = y ∧ lexLeNat xs ys = true) := by
  by_cases h1 : x < y
  · simp [lexLeNat, h1]
  · by_cases h2 : y < x
    · simp only [lexLeNat, if_neg h1, if_pos h2]
      constructor
      · intro h; exact absurd h (by decide)
      · rintro (h | ⟨h, _⟩) <;> omega
    · have hxy : x = y := by omega
      simp [lexLeNat, h1, h2, hxy]

theorem lexLeNat_total : ∀ a b : List Nat, lexLeNat a b = true ∨ lexLeNat b a = true
  | [], _ => Or.inl rfl
  | _ :: _, [] => Or.inr rfl
  | x :: xs, y :: ys => by
    rcases Nat.lt_trichotomy x y with h | h | h
    · exact Or.inl ((lexLeNat_cons_iff x y xs ys).mpr (Or.inl h))
    · rcases lexLeNat_total xs ys with hr | hr
      · exact Or.inl ((lexLeNat_cons_iff x y xs ys).mpr (Or.inr ⟨h, hr⟩))
      · exact Or.inr ((lexLeNat_cons_iff y x ys xs).mpr (Or.inr ⟨h.symm, hr⟩))
    · exact Or.inr ((lexLeNat_cons_iff y x ys xs).mpr (Or.inl h))

theorem lexLeNat_trans : ∀ a b c : List Nat,
    lexLeNat a b = true → lexLeNat b c = true → lexLeNat a c = true
  | [], _, _, _, _ => rfl
  | _ :: _, [], _, h, _ => by simp [lexLeNat] at h
  | _ :: _, _ :: _, [], _, h => by simp [lexLeNat] at h
  | x :: xs, y :: ys, z :: zs, h1, h2 => by
    rw [lexLeNat_cons_iff] at h1 h2 ⊢
    rcases h1 with h1 | ⟨h1, h1r⟩ <;> rcases h2 with h2 | ⟨h2, h2r⟩
    · exact Or.inl (by omega)
    · exact Or.inl (by omega)
    · exact Or.inl (by omega)
    · exact Or.inr ⟨by omega, lexLeNat_trans xs ys zs h1r h2r⟩

theorem jsStrLe_total (a b : String) : jsStrLe a b = true ∨ jsStrLe b a = true :=
  lexLeNat_total _ _

theorem jsStrLe_trans (a b c : String) :
    jsStrLe a b = true → jsStrLe b c = true → jsStrLe a c = true :=
  lexLeNat_trans _ _ _

theorem mem_insertSorted (le : String → String → Bool) (a x : String) :
    ∀ l, x ∈ insertSorted le a l ↔ x = a ∨ x ∈ l
  | [] => by simp [insertSorted]
  | b :: bs => by
    by_cases h : le a b = true
    · simp only [insertSorted, if_pos h, List.mem_cons]
    · simp only [insertSorted, if_neg h, List.mem_cons, mem_insertSorted le a x bs]
      tauto

theorem sorted_insertSorted (le : String → String → Bool)
    (htr : ∀ a b c, le a b = true → le b c = true → le a c = true)
    (htot : ∀ a b, le a b = true ∨ le b a = true) (a : String) :
    ∀ l, List.Pairwise (fun x y => le x y = true) l →
      List.Pairwise (fun x y => le x y = true) (insertSorted le a l)
  | [], _ => List.pairwise_cons.mpr ⟨fun y hy => absurd hy (List.not_mem_nil y), .nil⟩
  | b :: bs, h => by
    rcases List.pairwise_cons.mp h with ⟨hb, hbs⟩
    by_cases hab : le a b = true
    · simp only [insertSorted, if_pos hab]
      refine List.pairwise_cons.mpr ⟨?_, h⟩
      intro y hy
      rcases List.mem_cons.mp hy with rfl | hy'
      · exact hab
      · exact htr a b y hab (hb y hy')
    · have hba : le b a = true := (htot a b).resolve_left hab
      simp only [insertSorted, if_neg hab]
      refine List.pairwise_cons.mpr ⟨?_, sorted_insertSorted le htr htot a bs hbs⟩
      intro y hy
      rcases (mem_insertSorted le a y bs).mp hy with rfl | hy'
      · exact hba
      · exact hb y hy'

theorem sorted_insertionSort (le : String → String → Bool)
    (htr : ∀ a b c, le a b = true → le b c = true → le a c = true)
    (htot : ∀ a b, le a b = true ∨ le b a = true) :
    ∀ l, List.Pairwise (fun x y => le x y = true) (insertionSort le l)
  | [] => .nil
  | a :: as => sorted_insertSorted le htr htot a _ (sorted_insertionSort le htr htot as)

/-- The list produced by `files.sort()` is ascending in the JS string order. -/
theorem sortJS_sorted (l : List String) :
    List.Pairwise (fun a b => jsStrLe a b = true) (sortJS l) :=
  sorted_insertionSort jsStrLe jsStrLe_trans jsStrLe_total l

/-! ### Lemmas about the `stat` batch -/

theorem statOne_error_iff (fs : Fs) (p : String) (e : FsErr) :
    statOne fs p = .error e ↔ fs.stat p = .error e ∧ e ≠ .enoent := by
  unfold statOne
  cases hfs : fs.stat p with
  | error e0 =>
    by_cases h : e0 = FsErr.enoent
    · subst h
      simp only [if_pos rfl]
      constructor
      · intro h; cases h
      · rintro ⟨h, hne⟩; cases h; exact absurd rfl hne
    · simp only [if_neg h]
      constructor
      · intro he; cases he; exact ⟨rfl, h⟩
      · rintro ⟨he, _⟩; cases he; rfl
  | ok st =>
    constructor
    · intro h; cases h
    · rintro ⟨h, _⟩; cases h

theorem stat_ok_spec (fs : Fs) (dir : String) : ∀ (files : List String) res,
    stat fs dir files = .ok res →
    res.length = files.length ∧
    ∀ i (hi : i < files.length) (hi' : i < res.length),
      statOne fs (join dir (files.get ⟨i, hi⟩)) = .ok (res.get ⟨i, hi'⟩)
  | [], res, h => by
    simp only [stat] at h
    cases h
    exact ⟨rfl, fun i hi _ => absurd hi (Nat.not_lt_zero i)⟩
  | f :: rest, res, h => by
    cases h1 : statOne fs (join dir f) with
    | error e => simp [stat, h1] at h
    | ok v =>
      cases h2 : stat fs dir rest with
      | error e => simp [stat, h1, h2] at h
      | ok vs =>
        simp only [stat, h1, h2] at h
        cases h
        obtain ⟨hlen, hget⟩ := stat_ok_spec fs dir rest vs h2
        refine ⟨by simp [hlen], ?_⟩
        intro i hi hi'
        cases i with
        | zero => simpa using h1
        | succ n =>
          simpa using hget n (by simpa using hi) (by simpa using hi')

theorem stat_error_spec (fs : Fs) (dir : String) : ∀ (files : List String) e,
    stat fs dir files = .error e →
    e ≠ .enoent ∧ ∃ f ∈ files, fs.stat (join dir f) = .error e
  | [], e, h => by simp [stat] at h
  | f :: rest, e, h => by
    cases h1 : statOne fs (join dir f) with
    | error e1 =>
      simp only [stat, h1] at h
      cases h
      obtain ⟨hfs, hne⟩ := (statOne_error_iff fs (join dir f) _).mp h1
      exact ⟨hne, f, List.mem_cons_self f rest, hfs⟩
    | ok v =>
      cases h2 : stat fs dir rest with
      | error e2 =>
        simp only [stat, h1, h2] at h
        cases h
        obtain ⟨hne, g, hg, hfs⟩ := stat_error_spec fs dir rest _ h2
        exact ⟨hne, g, List.mem_cons_of_mem f hg, hfs⟩
      | ok vs => simp [stat, h1, h2] at h

/-! ### Claims -/

/-- C10: constructing the middleware with a falsy `root` argument (missing,
`null`, or the empty string) throws a `TypeError` synchronously instead of
returning a handler. -/
theorem serveIndex_requires_root (cwd : String) (root : Option String)
    (h : root = none ∨ root = some "") :
    serveIndex cwd root = .error (.typeError "serveIndex() root path required") := by
  rcases h with h | h <;> simp [serveIndex, h]

theorem serveIndex_requires_root_witness :
    serveIndex "/w" (some "") = .error (.typeError "serveIndex() root path required") :=
  serveIndex_requires_root "/w" (some "") (Or.inr rfl)

/-- C2 counterexample: on a GET request whose path component does not
URL-decode (the `decodeURIComponent` builtin throws), the handler lets the
`URIError` propagate out of the middleware function — it does not deliver a
400-class error through the `next` error channel, since line 104 of the source
has no try/catch. -/
def envBadDecode : Env := { envJson with decode := fun _ => none }

theorem decode_failure_counterexample :
    handle cfg0 envBadDecode fs0
        { method := "GET", pathname := "/%", originalPathname := "/%" } =
      (.thrown .uriError, []) ∧
    (Outcome.thrown .uriError ≠ .nextErr 400) :=
  ⟨rfl, by decide⟩

/-- C2 (amended): a GET/HEAD request whose URL path component fails to
URL-decode makes the handler throw a `URIError` synchronously (uncaught),
with no error delivered through the error channel and no filesystem access. -/
theorem decode_failure_throws (cfg : Config) (env : Env) (fs : Fs) (req : Req)
    (hm : req.method = "GET" ∨ req.method = "HEAD")
    (hdec : env.decode req.pathname = none) :
    handle cfg env fs req = (.thrown .uriError, []) := by
  rcases hm with h | h <;> simp [handle, h, hdec]

theorem decode_failure_throws_witness :
    handle cfg0 envBadDecode fs0
        { method := "HEAD", pathname := "/%zz", originalPathname := "/%zz" } =
      (.thrown .uriError, []) :=
  decode_failure_throws cfg0 envBadDecode fs0 _ (Or.inr rfl) rfl

/-- C4: a NUL byte anywhere in the joined-and-normalized decoded path makes the
handler answer through `next` with a 400-class error, performing no filesystem
operation at all (the returned operation log is empty). -/
theorem nul_rejected_before_fs (cfg : Config) (env : Env) (fs : Fs) (req : Req)
    (dir odir : String)
    (hm : req.method = "GET" ∨ req.method = "HEAD")
    (hdec : env.decode req.pathname = some dir)
    (hodec : env.decode req.originalPathname = some odir)
    (hnul : strContains (normalize (join cfg.rootPath dir)) nul = true) :
    handle cfg env fs req = (.nextErr 400, []) := by
  rcases hm with h | h <;> simp [handle, h, hdec, hodec, hnul]

theorem nul_rejected_before_fs_witness :
    handle cfg0 envJson fs0
        { method := "GET", pathname := "/a\x00b", originalPathname := "/a\x00b" } =
      (.nextErr 400, []) :=
  nul_rejected_before_fs cfg0 envJson fs0 _ "/a\x00b" "/a\x00b" (Or.inl rfl) rfl rfl
    (by decide)

/-- C1 counterexample: a decoded path that both escapes the root and contains a
NUL byte is answered with a 400-class error, not the 403-class error the claim
promises for every escaping candidate — the NUL check at line 111 fires before
the prefix check at line 114. -/
def reqNulEscape : Req :=
  { method := "GET", pathname := "/../\x00", originalPathname := "/../\x00" }

theorem escape_nul_counterexample :
    strTake (normalize (join cfg0.rootPath "/../\x00") ++ sep) cfg0.rootPath.length ≠
      cfg0.rootPath ∧
    envJson.decode reqNulEscape.pathname = some "/../\x00" ∧
    handle cfg0 envJson fs0 reqNulEscape = (.nextErr 400, []) ∧
    Outcome.nextErr 400 ≠ Outcome.nextErr 403 :=
  ⟨by decide, rfl, rfl, by decide⟩

/-- C1 (amended): when the candidate path (decoded path joined onto the root
and normalized) plus a trailing separator is not prefixed by the root, the
handler rejects without any filesystem operation: with a 403-class error when
the candidate is NUL-free, and with the earlier 400-class NUL rejection
otherwise.  In neither case is a directory listing produced. -/
theorem escape_rejected_forbidden (cfg : Config) (env : Env) (fs : Fs) (req : Req)
    (dir odir : String)
    (hm : req.method = "GET" ∨ req.method = "HEAD")
    (hdec : env.decode req.pathname = some dir)
    (hodec : env.decode req.originalPathname = some odir)
    (hpre : strTake (normalize (join cfg.rootPath dir) ++ sep) cfg.rootPath.length ≠
      cfg.rootPath) :
    (strContains (normalize (join cfg.rootPath dir)) nul = false →
      handle cfg env fs req = (.nextErr 403, [])) ∧
    (strContains (normalize (join cfg.rootPath dir)) nul = true →
      handle cfg env fs req = (.nextErr 400, [])) := by
  constructor <;> intro hnul <;> rcases hm with h | h <;>
    simp [handle, h, hdec, hodec, hnul, hpre]

def reqEtc : Req :=
  { method := "GET", pathname := "/../etc", originalPathname := "/../etc" }

theorem escape_rejected_forbidden_witness :
    strContains (normalize (join cfg0.rootPath "/../etc")) nul = false ∧
    handle cfg0 envJson fs0 reqEtc = (.nextErr 403, []) :=
  ⟨by decide,
    (escape_rejected_forbidden cfg0 envJson fs0 reqEtc "/../etc" "/../etc" (Or.inl rfl) rfl rfl
      (by decide)).1 (by decide)⟩

/-- C8: on a GET/HEAD request with a safe candidate path, an ENOENT stat and a
non-directory target both decline through a plain `next()`; every other stat
failure is surfaced through the error channel with status 500, except
ENAMETOOLONG which gets 414. -/
theorem stat_outcome_dispatch (cfg : Config) (env : Env) (fs : Fs) (req : Req)
    (dir odir : String)
    (hm : req.method = "GET" ∨ req.method = "HEAD")
    (hdec : env.decode req.pathname = some dir)
    (hodec : env.decode req.originalPathname = some odir)
    (hnul : strContains (normalize (join cfg.rootPath dir)) nul = false)
    (hpre : strTake (normalize (join cfg.rootPath dir) ++ sep) cfg.rootPath.length =
      cfg.rootPath) :
    (fs.stat (normalize (join cfg.rootPath dir)) = .error .enoent →
      (handle cfg env fs req).1 = .next) ∧
    (∀ st, fs.stat (normalize (join cfg.rootPath dir)) = .ok st →
      st.isDirectory = false → (handle cfg env fs req).1 = .next) ∧
    (fs.stat (normalize (join cfg.rootPath dir)) = .error .enametoolong →
      (handle cfg env fs req).1 = .nextErr 414) ∧
    (∀ e, fs.stat (normalize (join cfg.rootPath dir)) = .error e →
      e ≠ .enoent → e ≠ .enametoolong → (handle cfg env fs req).1 = .nextErr 500) := by
  refine ⟨?_, ?_, ?_, ?_⟩
  · intro hstat
    rcases hm with h | h <;> simp [handle, h, hdec, hodec, hnul, hpre, hstat]
  · intro st hstat hd
    rcases hm with h | h <;> simp [handle, h, hdec, hodec, hnul, hpre, hstat, hd]
  · intro hstat
    rcases hm with h | h <;> simp [handle, h, hdec, hodec, hnul, hpre, hstat]
  · intro e hstat he1 he2
    rcases hm with h | h <;> simp [handle, h, hdec, hodec, hnul, hpre, hstat, he1, he2]

def fsErrs : Fs :=
  { stat := fun p =>
      if p = "/r/long" then .error .enametoolong
      else if p = "/r/bad" then .error .eacces
      else if p = "/r/file" then .ok stFile
      else .error .enoent,
    readdir := fun _ => .error .eio,
    readFile := fun _ => .error .eio }

def reqMissing : Req :=
  { method := "GET", pathname := "/missing", originalPathname := "/missing" }

def reqFile : Req := { method := "GET", pathname := "/file", originalPathname := "/file" }

def reqLong : Req := { method := "GET", pathname := "/long", originalPathname := "/long" }

def reqBad : Req := { method := "GET", pathname := "/bad", originalPathname := "/bad" }

theorem stat_outcome_dispatch_witness :
    (handle cfg0 envJson fsErrs reqMissing).1 = .next ∧
    (handle cfg0 envJson fsErrs reqFile).1 = .next ∧
    (handle cfg0 envJson fsErrs reqLong).1 = .nextErr 414 ∧
    (handle cfg0 envJson fsErrs reqBad).1 = .nextErr 500 :=
  ⟨(stat_outcome_dispatch cfg0 envJson fsErrs reqMissing "/missing" "/missing" (Or.inl rfl)
      rfl rfl (by decide) (by decide)).1 rfl,
   (stat_outcome_dispatch cfg0 envJson fsErrs reqFile "/file" "/file" (Or.inl rfl)
      rfl rfl (by decide) (by decide)).2.1 stFile rfl rfl,
   (stat_outcome_dispatch cfg0 envJson fsErrs reqLong "/long" "/long" (Or.inl rfl)
      rfl rfl (by decide) (by decide)).2.2.1 rfl,
   (stat_outcome_dispatch cfg0 envJson fsErrs reqBad "/bad" "/bad" (Or.inl rfl)
      rfl rfl (by decide) (by decide)).2.2.2 .eacces rfl (by decide) (by decide)⟩

/-- Shared helper: on a listable directory request whose negotiation picks
JSON, the handler responds with the JSON serialization of the sorted entry
names. -/
theorem handle_json_eq (cfg : Config) (env : Env) (fs : Fs) (req : Req)
    (dir odir : String) (st : Stat) (files0 : List String)
    (hm : req.method = "GET" ∨ req.method = "HEAD")
    (hdec : env.decode req.pathname = some dir)
    (hodec : env.decode req.originalPathname = some odir)
    (hnul : strContains (normalize (join cfg.rootPath dir)) nul = false)
    (hpre : strTake (normalize (join cfg.rootPath dir) ++ sep) cfg.rootPath.length =
      cfg.rootPath)
    (hstat : fs.stat (normalize (join cfg.rootPath dir)) = .ok st)
    (hdir : st.isDirectory = true)
    (hrd : fs.readdir (normalize (join cfg.rootPath dir)) = .ok files0)
    (hneg : env.negotiate mediaTypes = some "application/json") :
    (handle cfg env fs req).1 =
      .response "application/json" (jsonStringify (sortJS files0)) := by
  rcases hm with h | h <;>
    simp [handle, h, hdec, hodec, hnul, hpre, hstat, hdir, hrd, hneg]

/-- C9: on a listable directory request, a negotiated `application/json` type
yields the JSON array of the sorted names, a negotiated `text/plain` type
yields the newline-joined names with a trailing newline, and a failed
negotiation (no acceptable type among html/plain/json) yields a 406-class
error. -/
theorem content_negotiation_bodies (cfg : Config) (env : Env) (fs : Fs) (req : Req)
    (dir odir : String) (st : Stat) (files0 : List String)
    (hm : req.method = "GET" ∨ req.method = "HEAD")
    (hdec : env.decode req.pathname = some dir)
    (hodec : env.decode req.originalPathname = some odir)
    (hnul : strContains (normalize (join cfg.rootPath dir)) nul = false)
    (hpre : strTake (normalize (join cfg.rootPath dir) ++ sep) cfg.rootPath.length =
      cfg.rootPath)
    (hstat : fs.stat (normalize (join cfg.rootPath dir)) = .ok st)
    (hdir : st.isDirectory = true)
    (hrd : fs.readdir (normalize (join cfg.rootPath dir)) = .ok files0) :
    (env.negotiate mediaTypes = some "application/json" →
      (handle cfg env fs req).1 =
        .response "application/json" (jsonStringify (sortJS files0))) ∧
    (env.negotiate mediaTypes = some "text/plain" →
      (handle cfg env fs req).1 =
        .response "text/plain" (String.intercalate "\n" (sortJS files0) ++ "\n")) ∧
    (env.negotiate mediaTypes = none → (handle cfg env fs req).1 = .nextErr 406) := by
  refine ⟨?_, ?_, ?_⟩
  · intro hneg
    exact handle_json_eq cfg env fs req dir odir st files0 hm hdec hodec hnul hpre hstat
      hdir hrd hneg
  · intro hneg
    rcases hm with h | h <;>
      simp [handle, h, hdec, hodec, hnul, hpre, hstat, hdir, hrd, hneg]
  · intro hneg
    rcases hm with h | h <;>
      simp [handle, h, hdec, hodec, hnul, hpre, hstat, hdir, hrd, hneg]

theorem content_negotiation_bodies_witness :
    (handle cfg0 envJson fs0 reqSub).1 =
      .response "application/json" (jsonStringify (sortJS ["b", "a"])) ∧
    (handle cfg0 envPlain fs0 reqSub).1 =
      .response "text/plain" (String.intercalate "\n" (sortJS ["b", "a"]) ++ "\n") ∧
    (handle cfg0 envNoAccept fs0 reqSub).1 = .nextErr 406 :=
  ⟨(content_negotiation_bodies cfg0 envJson fs0 reqSub "/sub" "/sub" stDir ["b", "a"]
      (Or.inl rfl) rfl rfl (by decide) (by decide) rfl rfl rfl).1 rfl,
   (content_negotiation_bodies cfg0 envPlain fs0 reqSub "/sub" "/sub" stDir ["b", "a"]
      (Or.inl rfl) rfl rfl (by decide) (by decide) rfl rfl rfl).2.1 rfl,
   (content_negotiation_bodies cfg0 envNoAccept fs0 reqSub "/sub" "/sub" stDir ["b", "a"]
      (Or.inl rfl) rfl rfl (by decide) (by decide) rfl rfl rfl).2.2 rfl⟩

/-- C5: the entry-name list served for a valid directory is ascending in the
JS string order, and the synthetic `".."` entry, when present, is prepended in
front of the already-sorted list. -/
theorem listing_sorted_dotdot_first (cfg : Config) (env : Env) (fs : Fs) (req : Req)
    (dir odir : String) (st : Stat) (files0 : List String)
    (hm : req.method = "GET" ∨ req.method = "HEAD")
    (hdec : env.decode req.pathname = some dir)
    (hodec : env.decode req.originalPathname = some odir)
    (hnul : strContains (normalize (join cfg.rootPath dir)) nul = false)
    (hpre : strTake (normalize (join cfg.rootPath dir) ++ sep) cfg.rootPath.length =
      cfg.rootPath)
    (hstat : fs.stat (normalize (join cfg.rootPath dir)) = .ok st)
    (hdir : st.isDirectory = true)
    (hrd : fs.readdir (normalize (join cfg.rootPath dir)) = .ok files0)
    (hneg : env.negotiate mediaTypes = some "application/json") :
    ∃ l, (handle cfg env fs req).1 = .response "application/json" (jsonStringify l) ∧
      List.Pairwise (fun a b => jsStrLe a b = true) l ∧
      ∀ s, htmlFiles s l = (if s then [".."] else []) ++ l := by
  refine ⟨sortJS files0, ?_, sortJS_sorted files0, ?_⟩
  · exact handle_json_eq cfg env fs req dir odir st files0 hm hdec hodec hnul hpre hstat
      hdir hrd hneg
  · intro s
    cases s <;> simp [htmlFiles]

theorem listing_sorted_dotdot_first_witness :
    ∃ l, (handle cfg0 envJson fs0 reqSub).1 =
        .response "application/json" (jsonStringify l) ∧
      List.Pairwise (fun a b => jsStrLe a b = true) l ∧
      ∀ s, htmlFiles s l = (if s then [".."] else []) ++ l :=
  listing_sorted_dotdot_first cfg0 envJson fs0 reqSub "/sub" "/sub" stDir ["b", "a"]
    (Or.inl rfl) rfl rfl (by decide) (by decide) rfl rfl rfl rfl

/-- C3 counterexample: on the same directory state (root `/r/`, directory
`sub` containing entries `a` and `b`, parent flag set), the JSON response
serializes the list `["a", "b"]` while the HTML markup for the same request is
built from `["..", "a", "b"]` — the lists differ, because `serveIndex.json`
receives the sorted names without the `".."` that `serveIndex.html`
unshifts. -/
theorem json_html_list_counterexample :
    (handle cfg0 envJson fs0 reqSub).1 =
      .response "application/json" (jsonStringify ["a", "b"]) ∧
    (handle cfg0 envHtml fs0 reqSub).1 =
      .response "text/html"
        (renderBody envHtml.fmtDate envHtml.fmtTime "[\x7bfiles\x7d]" "S"
          ((htmlFiles true ["a", "b"]).zip [none, some stFile, none])
          "/sub" false "tiles") ∧
    htmlFiles true ["a", "b"] = ["..", "a", "b"] ∧
    (["a", "b"] : List String) ≠ ["..", "a", "b"] :=
  ⟨rfl, rfl, rfl, by decide⟩

/-- C3 (amended): the name list serialized in the JSON body is the sorted
entry list without the synthetic parent entry; the list used for the HTML
markup is the same list, with `".."` prepended exactly when the show-parent
flag is set.  The two lists coincide iff the flag is unset. -/
theorem json_html_list_relation (cfg : Config) (env : Env) (fs : Fs) (req : Req)
    (dir odir : String) (st : Stat) (files0 : List String)
    (hm : req.method = "GET" ∨ req.method = "HEAD")
    (hdec : env.decode req.pathname = some dir)
    (hodec : env.decode req.originalPathname = some odir)
    (hnul : strContains (normalize (join cfg.rootPath dir)) nul = false)
    (hpre : strTake (normalize (join cfg.rootPath dir) ++ sep) cfg.rootPath.length =
      cfg.rootPath)
    (hstat : fs.stat (normalize (join cfg.rootPath dir)) = .ok st)
    (hdir : st.isDirectory = true)
    (hrd : fs.readdir (normalize (join cfg.rootPath dir)) = .ok files0)
    (hneg : env.negotiate mediaTypes = some "application/json") :
    ∃ l, (handle cfg env fs req).1 = .response "application/json" (jsonStringify l) ∧
      (htmlFiles (showUpFlag cfg.rootPath env.cwd (normalize (join cfg.rootPath dir))) l = l ∨
        htmlFiles (showUpFlag cfg.rootPath env.cwd (normalize (join cfg.rootPath dir))) l =
          ".." :: l) ∧
      (htmlFiles (showUpFlag cfg.rootPath env.cwd (normalize (join cfg.rootPath dir))) l =
          ".." :: l ↔
        showUpFlag cfg.rootPath env.cwd (normalize (join cfg.rootPath dir)) = true) := by
  refine ⟨sortJS files0, handle_json_eq cfg env fs req dir odir st files0 hm hdec hodec
    hnul hpre hstat hdir hrd hneg, ?_, ?_⟩
  · cases hs : showUpFlag cfg.rootPath env.cwd (normalize (join cfg.rootPath dir))
    · exact Or.inl (by simp [htmlFiles])
    · exact Or.inr (by simp [htmlFiles])
  · cases hs : showUpFlag cfg.rootPath env.cwd (normalize (join cfg.rootPath dir))
    · simp only [htmlFiles, if_neg (by simp : ¬(false = true))]
      constructor
      · intro h
        exact absurd h.symm (List.cons_ne_self ".." (sortJS files0))
      · intro h
        cases h
    · simp [htmlFiles]

theorem json_html_list_relation_witness :
    ∃ l, (handle cfg0 envJson fs0 reqSub).1 =
        .response "application/json" (jsonStringify l) ∧
      (htmlFiles (showUpFlag cfg0.rootPath envJson.cwd
          (normalize (join cfg0.rootPath "/sub"))) l = l ∨
        htmlFiles (showUpFlag cfg0.rootPath envJson.cwd
          (normalize (join cfg0.rootPath "/sub"))) l = ".." :: l) ∧
      (htmlFiles (showUpFlag cfg0.rootPath envJson.cwd
          (normalize (join cfg0.rootPath "/sub"))) l = ".." :: l ↔
        showUpFlag cfg0.rootPath envJson.cwd
          (normalize (join cfg0.rootPath "/sub")) = true) :=
  json_html_list_relation cfg0 envJson fs0 reqSub "/sub" "/sub" stDir ["b", "a"]
    (Or.inl rfl) rfl rfl (by decide) (by decide) rfl rfl rfl rfl

/-- C6: the show-parent flag is true iff the candidate path's
absolute-normalized-plus-separator form differs from the root; when it equals
the root the HTML renderer does not prepend `".."`, so no parent entry appears
in the listing (directory reads never report `".."` themselves). -/
theorem show_up_iff_not_root (rootPath cwd path : String) (files : List String) :
    (showUpFlag rootPath cwd path = true ↔
      normalize (resolve cwd path ++ sep) ≠ rootPath) ∧
    (normalize (resolve cwd path ++ sep) = rootPath → ".." ∉ files →
      ".." ∉ htmlFiles (showUpFlag rootPath cwd path) files) := by
  constructor
  · simp [showUpFlag, bne_iff_ne]
  · intro hroot hmem
    have hflag : showUpFlag rootPath cwd path = false := by simp [showUpFlag, hroot]
    simpa [htmlFiles, hflag] using hmem

theorem show_up_iff_not_root_witness :
    (showUpFlag "/r/" "/w" "/r/" = true ↔
      normalize (resolve "/w" "/r/" ++ sep) ≠ "/r/") ∧
    ".." ∉ htmlFiles (showUpFlag "/r/" "/w" "/r/") ["a"] :=
  ⟨(show_up_iff_not_root "/r/" "/w" "/r/" ["a"]).1,
   (show_up_iff_not_root "/r/" "/w" "/r/" ["a"]).2 (by decide) (by decide)⟩

/-- C7: the batched per-entry stat returns a result list positionally aligned
with its input list; a hard per-entry error (anything but ENOENT) aborts the
whole batch with that error, while an ENOENT per-entry failure is recorded as
a `null` stat instead of failing. -/
theorem stat_batch_positional (fs : Fs) (dir : String) (files : List String) :
    (∀ res, stat fs dir files = .ok res →
      res.length = files.length ∧
      ∀ i (hi : i < files.length) (hi' : i < res.length),
        statOne fs (join dir (files.get ⟨i, hi⟩)) = .ok (res.get ⟨i, hi'⟩)) ∧
    (∀ e, stat fs dir files = .error e →
      e ≠ .enoent ∧ ∃ f ∈ files, fs.stat (join dir f) = .error e) ∧
    (∀ p, fs.stat p = .error .enoent → statOne fs p = .ok none) :=
  ⟨fun res h => stat_ok_spec fs dir files res h,
   fun e h => stat_error_spec fs dir files e h,
   fun p h => by simp [statOne, h]⟩

theorem stat_batch_positional_witness :
    statOne fs0 (join "/r/sub" "..") = .ok none ∧
    statOne fs0 (join "/r/sub" "a") = .ok (some stFile) ∧
    statOne fs0 "/r/gone" = .ok none :=
  ⟨((stat_batch_positional fs0 "/r/sub" ["..", "a"]).1 [none, some stFile] rfl).2 0
      (by decide) (by decide),
   ((stat_batch_positional fs0 "/r/sub" ["..", "a"]).1 [none, some stFile] rfl).2 1
      (by decide) (by decide),
   (stat_batch_positional fs0 "/r/sub" ["..", "a"]).2.2 "/r/gone" rfl⟩

end ServeIndex
